import Mathlib

/-!
Verification of the price-based charging scheduler and policy engine of
`price_based_charging.py`.

The slot list of the program is a Python list of dicts
`{'datetime': ..., 'level': ..., 'price': ..., 'charge': None|True|False}`.
We embed it as `List Slot` with the tri-state `charge` field rendered as
`UNDECIDED` (None), `RESERVED` (True) and `BLOCKED` (False).  Datetimes are
embedded as integers (seconds since an arbitrary epoch; the code only
compares, orders and shifts them by whole hours).  Prices are rationals.
Python list slices (`l[i:j]`, with clamping and negative-index wrap-around)
are embedded by `pySlice`, and Python's stable `sorted(..., key=...)` by a
stable insertion sort `sortBy` with the corresponding key order.
-/

namespace PBC

inductive Charge where
  | UNDECIDED : Charge
  | RESERVED : Charge
  | BLOCKED : Charge
deriving DecidableEq, Repr

inductive PriceLevel where
  | VERY_CHEAP : PriceLevel
  | CHEAP : PriceLevel
  | NORMAL : PriceLevel
  | EXPENSIVE : PriceLevel
  | VERY_EXPENSIVE : PriceLevel
deriving DecidableEq, Repr

/-- One hourly price slot, the element type of the `prices` list built by
`get_electricity_prices` (line 151 of the source). -/
structure Slot where
  datetime : Int
  level : PriceLevel
  price : ℚ
  charge : Charge
deriving DecidableEq, Repr

/-- Python index normalisation for slices: negative indices count from the
end, and indices are clamped to `[0, n]`. -/
def pyIdx (n : Nat) (i : Int) : Nat :=
  if i < 0 then (i + n).toNat else min i.toNat n

/-- Python slice `l[i:j]` (step 1). -/
def pySlice {α : Type*} (l : List α) (i j : Int) : List α :=
  (l.take (pyIdx l.length j)).drop (pyIdx l.length i)

/-- Insert `a` in front of the first element `b` with `le a b`; together with
`sortBy` this is a stable sort, matching Python's stable `sorted`. -/
def insertSorted {α : Type*} (le : α → α → Bool) (a : α) : List α → List α
  | [] => [a]
  | b :: l => if le a b then a :: b :: l else b :: insertSorted le a l

/-- Stable insertion sort; model of Python `sorted(l, key=...)` where `le`
is the non-strict order induced by the key. -/
def sortBy {α : Type*} (le : α → α → Bool) : List α → List α
  | [] => []
  | a :: l => insertSorted le a (sortBy le l)

/-- Key order of `sorted(..., key=lambda d: d['datetime'])`. -/
def dtLe (a b : Slot) : Bool := a.datetime ≤ b.datetime

/-- Key order of `sorted(..., key=lambda d: (d['price'], d['datetime']))`. -/
def priceDtLe (a b : Slot) : Bool :=
  a.price < b.price ∨ (a.price = b.price ∧ a.datetime ≤ b.datetime)

/-- Lines 166-188 of `update_charge`: filter the still-undecided slots, order
them by datetime, cut to the (already clamped) budget, order by price with a
datetime tie-break and cut to the hours needed.  `hb` is the clamped budget
`max(1, hours_budget)`. -/
def selectedSlots (prices : List Slot) (hours_needed hb : Int) : List Slot :=
  let newprices := prices.filter (fun s => s.charge = Charge.UNDECIDED)
  let orderednewprices := sortBy dtLe newprices
  let cutprices :=
    pySlice orderednewprices 0 (min (orderednewprices.length : Int) hb)
  let orderedcutprices := sortBy priceDtLe cutprices
  pySlice orderedcutprices 0 (min (orderedcutprices.length : Int) hours_needed)

/-- Lines 191-195: a slot whose datetime matches a selected slot gets
`charge = True`. -/
def reserveMark (sel : List Slot) (s : Slot) : Slot :=
  if sel.any (fun t => t.datetime = s.datetime) then
    { s with charge := Charge.RESERVED }
  else s

def reservePhase (prices : List Slot) (hours_needed hb : Int) : List Slot :=
  prices.map (reserveMark (selectedSlots prices hours_needed hb))

/-- Lines 198-206: the slots of the away window, i.e. the slice
`sorted(prices)[min(len, hb+1) : min(len, hb+hours_duration+1)]`. -/
def awaySlots (prices : List Slot) (hb hours_duration : Int) : List Slot :=
  let orderedprices := sortBy dtLe prices
  pySlice orderedprices (min (orderedprices.length : Int) (hb + 1))
    (min (orderedprices.length : Int) (hb + hours_duration + 1))

/-- Lines 209-213: a slot matching an away-window datetime gets
`charge = False` unless it is already `True`. -/
def blockMark (aw : List Slot) (s : Slot) : Slot :=
  if aw.any (fun t => t.datetime = s.datetime) ∧ s.charge ≠ Charge.RESERVED then
    { s with charge := Charge.BLOCKED }
  else s

def blockPhase (prices : List Slot) (hb hours_duration : Int) : List Slot :=
  prices.map (blockMark (awaySlots prices hb hours_duration))

/-- The function `update_charge(prices, hours_needed, hours_budget,
hours_duration)` (lines 156-216): clamp the budget to at least 1, reserve the
cheapest undecided slots inside the budget window, then block the away
window. -/
def update_charge (prices : List Slot) (hours_needed hours_budget hours_duration : Int) :
    List Slot :=
  let hb := max 1 hours_budget
  blockPhase (reservePhase prices hours_needed hb) hb hours_duration

/-- The deadline window of one `update_charge` call: the first
`max(1, hours_budget)` undecided slots in datetime order (line 176). -/
def deadlineWindow (prices : List Slot) (hours_budget : Int) : List Slot :=
  (sortBy dtLe (prices.filter (fun s => s.charge = Charge.UNDECIDED))).take
    (max 1 hours_budget).toNat

/-- Lines 899-911 of `main`: when the uncommitted pool `charge_left` hits
exactly zero, walk the slot list from the front; stop at the first `False`
slot, turn every `None` slot into `False`, and step over `True` slots. -/
def sweepBlock : List Slot → List Slot
  | [] => []
  | s :: rest =>
    if s.charge = Charge.BLOCKED then s :: rest
    else if s.charge = Charge.UNDECIDED then
      { s with charge := Charge.BLOCKED } :: sweepBlock rest
    else s :: sweepBlock rest

/-- Mark a single undecided slot as blocked, used to describe the action of
`sweepBlock` on the prefix before the first blocked slot. -/
def blockUndecided (s : Slot) : Slot :=
  if s.charge = Charge.UNDECIDED then { s with charge := Charge.BLOCKED } else s

/-- Number of slots whose charge state was not `RESERVED` before a call and
is `RESERVED` after it (positions are matched pairwise). -/
def newlyReservedCount (before after : List Slot) : Nat :=
  (before.zip after).countP
    (fun p => p.1.charge ≠ Charge.RESERVED ∧ p.2.charge = Charge.RESERVED)

/-- A sequence of `update_charge` calls within one cycle, one per trip event,
each with its `(hours_needed, hours_budget, hours_duration)` triple. -/
def runCalls (prices : List Slot) (calls : List (Int × Int × Int)) : List Slot :=
  calls.foldl (fun ps c => update_charge ps c.1 c.2.1 c.2.2) prices

/-- The 24-slot scenario of the specification: hourly slots starting now,
prices 0.10, 0.05, 0.30, 0.08 for hours 0-3 and 0.50 afterwards, all
undecided. -/
def scenarioSlots : List Slot :=
  [⟨0, PriceLevel.NORMAL, 1/10, Charge.UNDECIDED⟩,
   ⟨3600, PriceLevel.NORMAL, 1/20, Charge.UNDECIDED⟩,
   ⟨7200, PriceLevel.NORMAL, 3/10, Charge.UNDECIDED⟩,
   ⟨10800, PriceLevel.NORMAL, 2/25, Charge.UNDECIDED⟩] ++
  (List.range 20).map (fun k =>
    ⟨3600 * (4 + (k : Int)), PriceLevel.NORMAL, 1/2, Charge.UNDECIDED⟩)

/-- Configuration values read by `main` from the config file (with the
module-level defaults of lines 73-85 as fallbacks). -/
structure Config where
  kwhPerKm : ℚ
  batteryCapacity : Int
  chargeReturning : Int
  chargeMinimum : Int
  chargeCheap : Int
  chargeDefault : Int
  chargeVeryCheap : Int
deriving DecidableEq, Repr

/-- The fallback values of the source: KWH_PER_KILOMETER 0.250,
BATTERY_CAPACITY 100, CHARGE_RETURNING 10, CHARGE_MINIMUM 32, CHARGE_CHEAP 49,
CHARGE_DEFAULT 50, CHARGE_VERY_CHEAP 98. -/
def defaultConfig : Config := ⟨1/4, 100, 10, 32, 49, 50, 98⟩

/-- CHARGE_POWER (line 86) is computed once at module load from the default
constants CHARGE_AMPS_MAX=13, CHARGE_PHASES=3, CHARGE_VOLTAGE=0.230; it is not
recomputed after the config file overrides those globals. -/
def CHARGE_POWER : ℚ := 13 * 3 * (23 / 100)

/-- One calendar event as consumed by the planning loop of `main`
(lines 869-894): start and end in seconds, one-way distance in meters and
one-way travel time in seconds (already enriched by the maps lookup). -/
structure CalEvent where
  start_s : Int
  end_s : Int
  distance : Int
  travel_s : Int
deriving DecidableEq, Repr

/-- Line 870: departure is the event start minus the travel time. -/
def eventDepart (e : CalEvent) : Int := e.start_s - e.travel_s

/-- Line 871: arrival back home is the event end plus the travel time. -/
def eventHome (e : CalEvent) : Int := e.end_s + e.travel_s

/-- Line 872: hours the car is away, rounded up. -/
def eventDuration (e : CalEvent) : Int :=
  ⌈((eventHome e - eventDepart e : Int) : ℚ) / 3600⌉

/-- Line 873: whole hours left until departure, rounded down. -/
def eventBudget (now : Int) (e : CalEvent) : Int :=
  ⌊((eventDepart e - now : Int) : ℚ) / 3600⌋

/-- Line 875: kWh needed for the event, 4 kWh overhead plus distance-based
consumption, doubled for the return leg. -/
def eventChargeNeeded (cfg : Config) (e : CalEvent) : ℚ :=
  (4 + (e.distance : ℚ) / 1000 * cfg.kwhPerKm) * 2

/-- Line 877: the event's energy, capped at the battery capacity. -/
def eventCharge (cfg : Config) (e : CalEvent) : Int :=
  ⌈min (eventChargeNeeded cfg e) (cfg.batteryCapacity : ℚ)⌉

/-- Line 878: charging hours needed beyond the uncommitted pool. -/
def eventHoursNeeded (cfg : Config) (charge_left : ℚ) (e : CalEvent) : Int :=
  ⌈max ((eventCharge cfg e : ℚ) - charge_left) 0 / CHARGE_POWER⌉

/-- One iteration of the event loop of `main` (lines 869-911): call
`update_charge` for the event, deduct its energy from the uncommitted pool
(floored at zero), and when the pool hits exactly zero sweep the slot list. -/
def eventStep (cfg : Config) (now : Int) (st : ℚ × List Slot) (e : CalEvent) :
    ℚ × List Slot :=
  let prices := update_charge st.2 (eventHoursNeeded cfg st.1 e)
    (eventBudget now e) (eventDuration e)
  let charge_left := max (st.1 - (eventCharge cfg e : ℚ)) 0
  (charge_left, if charge_left = 0 then sweepBlock prices else prices)

/-- Lines 856-862: total energy demand for the cycle; zero when there are no
events, otherwise 4 kWh per event plus the round-trip consumption over the
total distance, plus the returning margin. -/
def kwhNeeded (cfg : Config) (events : List CalEvent) : ℚ :=
  if 0 < events.length then
    (4 * (events.length : ℚ)
        + ((events.map (fun e => e.distance)).sum : ℚ) / 1000 * cfg.kwhPerKm) * 2
      + cfg.chargeReturning
  else 0

/-- Line 862: the demand as a percentage of pack capacity, capped at 100 and
floored at CHARGE_MINIMUM, rounded up. -/
def chargeNeededOf (cfg : Config) (events : List CalEvent) : Int :=
  ⌈max (min (kwhNeeded cfg events / (cfg.batteryCapacity : ℚ) * 100) 100)
    (cfg.chargeMinimum : ℚ)⌉

/-- The trip-charge planning step of `main` (lines 851-918): with calendar
access, recompute `charge_needed` from the events and run the event loop over
the slot list starting from the pool
`(battery_level - CHARGE_RETURNING) * BATTERY_CAPACITY / 100`; without
calendar access (`google is None`), leave `charge_needed` and the slots
untouched. -/
def planStep (cfg : Config) (hasCalendar : Bool) (events : List CalEvent)
    (now battery_level charge_needed : Int) (prices : List Slot) :
    Int × List Slot :=
  if hasCalendar then
    let charge_left : ℚ :=
      ((battery_level - cfg.chargeReturning : Int) : ℚ) * cfg.batteryCapacity / 100
    (chargeNeededOf cfg events, (events.foldl (eventStep cfg now) (charge_left, prices)).2)
  else (charge_needed, prices)

/-- Line 922-926: the current hour's slot decision; true when some slot whose
hour interval contains `now` is marked for charging. -/
def chargeSlotNow (now : Int) (prices : List Slot) : Bool :=
  prices.any (fun s =>
    now ≥ s.datetime ∧ now < s.datetime + 3600 ∧ s.charge = Charge.RESERVED)

/-- The action decided by one of the five policy branches of `main`, carrying
the charge limit the branch sets. -/
inductive Decision where
  | chargeToNeeded : Int → Decision
  | chargeToMinimum : Int → Decision
  | chargeToCheap : Int → Decision
  | chargeToVeryCheap : Int → Decision
  | noWindow : Decision
deriving DecidableEq, Repr

/-- The five-branch if/elif chain of `main` (lines 927-1033), evaluated in
source order with the first matching branch winning: (1) event-driven charge
to `charge_needed` when the battery is below it and the current slot is
reserved, (2) charge to CHARGE_MINIMUM when below the minimum, (3) charge to
CHARGE_CHEAP when the current price level is CHEAP and the battery is below
it, (4) charge to CHARGE_VERY_CHEAP when the level is VERY_CHEAP and the
battery is below it, (5) otherwise no charging window. -/
def policyDecision (cfg : Config) (battery_level charge_needed : Int)
    (charge_slot : Bool) (level : PriceLevel) : Decision :=
  if battery_level < charge_needed ∧ charge_slot then
    Decision.chargeToNeeded charge_needed
  else if battery_level < cfg.chargeMinimum then
    Decision.chargeToMinimum cfg.chargeMinimum
  else if level = PriceLevel.CHEAP ∧ battery_level < cfg.chargeCheap then
    Decision.chargeToCheap cfg.chargeCheap
  else if level = PriceLevel.VERY_CHEAP ∧ battery_level < cfg.chargeVeryCheap then
    Decision.chargeToVeryCheap cfg.chargeVeryCheap
  else Decision.noWindow

/-- Lines 837-841: the user-override test; the current limit counts as
policy-set only when it equals CHARGE_DEFAULT, CHARGE_CHEAP, CHARGE_VERY_CHEAP
or the carried `charge_needed` (CHARGE_MINIMUM is not in the list). -/
def userOverride (cfg : Config) (current_limit charge_needed : Int) : Bool :=
  current_limit ≠ cfg.chargeDefault ∧ current_limit ≠ cfg.chargeCheap ∧
    current_limit ≠ cfg.chargeVeryCheap ∧ current_limit ≠ charge_needed

/-- The cross-cycle memory of the loop: the vehicle's charge limit (as
reflected by telemetry next cycle) and the sticky `charge_needed`. -/
structure CycleState where
  current_limit : Int
  charge_needed : Int
deriving DecidableEq, Repr

/-- The charge limit after a decision: each charging branch issues
`set_charge_limit` with its tier value; the no-window branch leaves the limit
alone. -/
def decisionLimit (d : Decision) (current : Int) : Int :=
  match d with
  | Decision.chargeToNeeded l => l
  | Decision.chargeToMinimum l => l
  | Decision.chargeToCheap l => l
  | Decision.chargeToVeryCheap l => l
  | Decision.noWindow => current

/-- Line 975/999: the current price level, read from `prices[0]`. -/
def levelNow (prices : List Slot) : PriceLevel :=
  ((prices.head?).map (fun s => s.level)).getD PriceLevel.NORMAL

/-- Model of `get_electricity_prices` (lines 135-154): on a database
connection error the function returns the sentinel `-1` (modelled as `none`);
with an empty result set the logging statement at line 153 subscripts
`prices[0]` and raises IndexError; otherwise it returns the slot list with
every slot undecided. -/
def get_electricity_prices (dbOk : Bool) (records : List (Int × PriceLevel × ℚ)) :
    Except String (Option (List Slot)) :=
  if dbOk then
    if records.isEmpty then
      Except.error "IndexError: list index out of range at prices 0"
    else
      Except.ok (some (records.map (fun r => ⟨r.1, r.2.1, r.2.2, Charge.UNDECIDED⟩)))
  else Except.ok none

/-- One at-home, cable-connected cycle of the main loop from the override
check onwards (lines 837-1035): the override check (with the carried
`charge_needed` of the previous cycle) comes before the price fetch result is
used; `main` then applies `len` and iteration to `prices` without testing for
the `-1` sentinel, which raises TypeError (line 853 or 922); on a real slot
list it plans, reads the current slot and level, and takes one policy
decision. -/
def cycleStep (cfg : Config) (hasCalendar : Bool) (events : List CalEvent)
    (now battery_level : Int) (pricesResult : Option (List Slot))
    (st : CycleState) : Except String (CycleState × Option Decision) :=
  if userOverride cfg st.current_limit st.charge_needed then Except.ok (st, none)
  else
    match pricesResult with
    | none => Except.error "TypeError: the -1 sentinel has no len and is not iterable"
    | some prices =>
      let r := planStep cfg hasCalendar events now battery_level st.charge_needed prices
      let d := policyDecision cfg battery_level r.1 (chargeSlotNow now r.2) (levelNow r.2)
      Except.ok (⟨decisionLimit d st.current_limit, r.1⟩, some d)

/-- A one-slot list whose current-hour slot is reserved, used to instantiate
the policy-ordering theorem. -/
def slotNowReserved : List Slot := [⟨0, PriceLevel.CHEAP, 1/10, Charge.RESERVED⟩]

/-- Price list for the override scenario: 14 hourly slots from now, the
current hour expensive, hours 1-5 cheap, the rest mid-priced, all
undecided. -/
def overridePrices : List Slot := (List.range 14).map (fun k =>
  ⟨3600 * (k : Int), PriceLevel.NORMAL,
    if k = 0 then 1 else if k ≤ 5 then 1/10 else 1/2, Charge.UNDECIDED⟩)

/-- Calendar event for the override scenario: departure 10 hours from now
(1 hour travel to an event starting at second 39600), back 4 hours after
departure, 84 km away, making `charge_needed` equal to 60 and the event's
energy 50 kWh. -/
def overrideEvent : CalEvent := ⟨39600, 46800, 84000, 3600⟩

/-- Three undecided hourly slots with prices 1, 2, 3, a small instance for
the counting theorem. -/
def threeSlots : List Slot :=
  [⟨0, PriceLevel.NORMAL, 1, Charge.UNDECIDED⟩,
   ⟨3600, PriceLevel.NORMAL, 2, Charge.UNDECIDED⟩,
   ⟨7200, PriceLevel.NORMAL, 3, Charge.UNDECIDED⟩]

/-- Three hourly slots in the three charge states, a small instance for the
decided-slots-preservation theorem. -/
def decidedSlots : List Slot :=
  [⟨0, PriceLevel.NORMAL, 1, Charge.RESERVED⟩,
   ⟨3600, PriceLevel.NORMAL, 2, Charge.BLOCKED⟩,
   ⟨7200, PriceLevel.NORMAL, 3, Charge.UNDECIDED⟩]

/-- One undecided slot, a small instance for the reservation-precedence
theorem. -/
def oneSlot : List Slot := [⟨0, PriceLevel.NORMAL, 1, Charge.UNDECIDED⟩]

/-- Slot list for the sweep instance: two undecided hours followed by a
blocked hour. -/
def sweepPrices : List Slot :=
  [⟨0, PriceLevel.NORMAL, 1, Charge.UNDECIDED⟩,
   ⟨3600, PriceLevel.NORMAL, 2, Charge.UNDECIDED⟩,
   ⟨7200, PriceLevel.NORMAL, 3, Charge.BLOCKED⟩]

/-- The prefix of `update_charge sweepPrices 1 0 0` before its first blocked
slot. -/
def sweepXs : List Slot :=
  [⟨0, PriceLevel.NORMAL, 1, Charge.RESERVED⟩,
   ⟨3600, PriceLevel.NORMAL, 2, Charge.UNDECIDED⟩]

/-- The first blocked slot of `update_charge sweepPrices 1 0 0`. -/
def sweepB : Slot := ⟨7200, PriceLevel.NORMAL, 3, Charge.BLOCKED⟩

/-- A zero-length, zero-distance event whose energy need (8 kWh) exceeds the
pool, used to instantiate the sweep theorem. -/
def sweepEvent : CalEvent := ⟨0, 0, 0, 0⟩

/-- C6 counterexample: in the specification scenario (24 hourly slots, prices
0.10/0.05/0.30/0.08 for hours 0-3, one call with hours_needed=2,
hours_budget=3, hours_duration=5) the claim expects hour 3 to be reserved,
but hour 3 lies outside the budget window (the first 3 undecided slots are
hours 0-2), so the code leaves it undecided. -/
theorem scenario_hour3_not_reserved :
    ¬ (((update_charge scenarioSlots 2 3 5)[3]?).map (fun s => s.charge)
        = some Charge.RESERVED) := by with_unfolding_all decide

/-- C6 amended: the call reserves hours 0 and 1 (the two cheapest slots of
the budget window, hours 0-2), blocks hours 4-8, and leaves hours 2, 3 and
9-23 undecided. -/
theorem scenario_marks :
    (update_charge scenarioSlots 2 3 5).map (fun s => s.charge)
      = [Charge.RESERVED, Charge.RESERVED, Charge.UNDECIDED, Charge.UNDECIDED]
        ++ List.replicate 5 Charge.BLOCKED
        ++ List.replicate 15 Charge.UNDECIDED := by with_unfolding_all decide

set_option linter.unusedVariables false in
/-- C3: the five policy branches are evaluated in a fixed order and the first
match wins; in particular, when the battery is below CHARGE_MINIMUM and below
`charge_needed` and the current-hour slot is RESERVED, the engine takes the
event-driven branch with limit `charge_needed`, not the minimum-floor
branch. -/
theorem event_branch_wins_over_minimum (cfg : Config)
    (battery_level charge_needed now : Int) (prices : List Slot)
    (level : PriceLevel)
    (hmin : battery_level < cfg.chargeMinimum)
    (hneed : battery_level < charge_needed)
    (hslot : chargeSlotNow now prices = true) :
    policyDecision cfg battery_level charge_needed (chargeSlotNow now prices) level
      = Decision.chargeToNeeded charge_needed := by
  rw [hslot]
  simp [policyDecision, hneed]

/-- Witness for the policy-ordering theorem: battery 20, minimum 32, needed
60, current slot reserved, current level CHEAP (so branches 1, 2 and 3 all
match) — branch 1 wins. -/
theorem event_branch_wins_over_minimum_witness :
    (20 : Int) < defaultConfig.chargeMinimum ∧ (20 : Int) < 60 ∧
      chargeSlotNow 0 slotNowReserved = true ∧
      policyDecision defaultConfig 20 60 (chargeSlotNow 0 slotNowReserved)
          PriceLevel.CHEAP
        = Decision.chargeToNeeded 60 :=
  ⟨by decide, by decide, by with_unfolding_all decide,
    event_branch_wins_over_minimum defaultConfig 20 60 0 slotNowReserved
      PriceLevel.CHEAP (by decide) (by decide) (by with_unfolding_all decide)⟩

/-- C4 counterexample: with calendar access and zero events the planning step
does not keep the prior cycle's `charge_needed` (here 50); line 862 recomputes
it as `ceil(max(min(0, 100), CHARGE_MINIMUM))`, which is CHARGE_MINIMUM. -/
theorem plan_zero_events_resets_needed :
    ¬ ((planStep defaultConfig true [] 0 20 50 scenarioSlots).1 = 50) := by
  with_unfolding_all decide

/-- C4 amended: with zero events the planning step leaves the slot list
unmodified, but `charge_needed` stays at the prior cycle's value only when
there is no calendar access (`google is None`); with calendar access and an
empty event list it is reset to CHARGE_MINIMUM. -/
theorem plan_zero_events (cfg : Config) (now battery_level charge_needed : Int)
    (prices : List Slot) (hmin : 0 ≤ cfg.chargeMinimum) :
    planStep cfg true [] now battery_level charge_needed prices
        = (cfg.chargeMinimum, prices) ∧
    planStep cfg false [] now battery_level charge_needed prices
        = (charge_needed, prices) := by
  refine ⟨?_, by simp [planStep]⟩
  have h0 : kwhNeeded cfg [] = 0 := by simp [kwhNeeded]
  have hcn : chargeNeededOf cfg [] = cfg.chargeMinimum := by
    rw [chargeNeededOf, h0, zero_div, zero_mul,
      min_eq_left (by norm_num : (0:ℚ) ≤ 100),
      max_eq_right (by exact_mod_cast hmin : (0:ℚ) ≤ (cfg.chargeMinimum : ℚ))]
    exact Int.ceil_intCast _
  simp [planStep, hcn]

/-- Witness for the amended zero-events theorem at the default
configuration. -/
theorem plan_zero_events_witness :
    (0 : Int) ≤ defaultConfig.chargeMinimum ∧
      planStep defaultConfig true [] 0 20 50 scenarioSlots
          = (defaultConfig.chargeMinimum, scenarioSlots) ∧
      planStep defaultConfig false [] 0 20 50 scenarioSlots
          = (50, scenarioSlots) :=
  ⟨by decide,
    (plan_zero_events defaultConfig 0 20 50 scenarioSlots (by decide)).1,
    (plan_zero_events defaultConfig 0 20 50 scenarioSlots (by decide)).2⟩

/-- C5: when the price source fails, `get_electricity_prices` returns the
`-1` sentinel, but `main` never tests for it: the cycle raises TypeError at
the first use of `prices` (line 853 `len(prices)` or line 922 iteration) and
the only handler around the loop catches KeyboardInterrupt, so the process
crashes instead of skipping the cycle. Here the cycle is run at a
non-override state with a failed fetch and is shown to end in the error. -/
theorem price_fetch_failure_crashes_cycle :
    (get_electricity_prices false []).bind
        (fun pr => cycleStep defaultConfig true [] 0 20 pr ⟨50, 32⟩)
      = Except.error "TypeError: the -1 sentinel has no len and is not iterable" := by
  rfl

/-- C10: a reachable two-cycle execution in which cycle one (battery 20,
carried limit CHARGE_DEFAULT=50, carried needed CHARGE_MINIMUM=32, one event
repricing `charge_needed` to 60, current slot not reserved) takes the
minimum-floor branch and sets the limit to 32, and cycle two — seeing limit
32, which is none of default/cheap/very-cheap/60 — classifies the engine's
own limit as a user override and takes no action although the battery (20)
is still below the minimum (32). -/
theorem minimum_limit_treated_as_override :
    cycleStep defaultConfig true [overrideEvent] 0 20 (some overridePrices)
        ⟨50, 32⟩
      = Except.ok (⟨32, 60⟩, some (Decision.chargeToMinimum 32)) ∧
    cycleStep defaultConfig true [overrideEvent] 0 20 (some overridePrices)
        ⟨32, 60⟩
      = Except.ok (⟨32, 60⟩, none) ∧
    (20 : Int) < defaultConfig.chargeMinimum := by
  refine ⟨by with_unfolding_all rfl, by with_unfolding_all rfl, by decide⟩

theorem reserveMark_keeps (sel : List Slot) (s : Slot) :
    (reserveMark sel s).datetime = s.datetime ∧ (reserveMark sel s).level = s.level ∧
      (reserveMark sel s).price = s.price := by
  unfold reserveMark; split <;> exact ⟨rfl, rfl, rfl⟩

theorem blockMark_keeps (aw : List Slot) (s : Slot) :
    (blockMark aw s).datetime = s.datetime ∧ (blockMark aw s).level = s.level ∧
      (blockMark aw s).price = s.price := by
  unfold blockMark; split <;> exact ⟨rfl, rfl, rfl⟩

theorem reserveMark_charge (sel : List Slot) (s : Slot) :
    ((reserveMark sel s).charge = Charge.RESERVED ↔
      (sel.any (fun t => t.datetime = s.datetime) = true ∨
        s.charge = Charge.RESERVED)) := by
  unfold reserveMark
  split
  case isTrue h => simp [h]
  case isFalse h => simp [h]

theorem blockMark_charge_reserved (aw : List Slot) (s : Slot) :
    ((blockMark aw s).charge = Charge.RESERVED ↔ s.charge = Charge.RESERVED) := by
  unfold blockMark
  split
  case isTrue h => simp [h.2]
  case isFalse h => exact Iff.rfl

theorem blockMark_charge_blocked (aw : List Slot) (s : Slot)
    (h : s.charge = Charge.BLOCKED) :
    (blockMark aw s).charge = Charge.BLOCKED := by
  unfold blockMark
  split
  · rfl
  · exact h

theorem update_charge_as_map (prices : List Slot) (n b d : Int) :
    update_charge prices n b d
      = prices.map (fun s =>
          blockMark (awaySlots (reservePhase prices n (max 1 b)) (max 1 b) d)
            (reserveMark (selectedSlots prices n (max 1 b)) s)) := by
  simp only [update_charge, blockPhase, reservePhase, List.map_map]
  rfl

/-- C9: one `update_charge` call returns a list of the same length in the
same order and only ever writes the `charge` field: at every position the
`datetime`, `level` and `price` fields are unchanged, and no slot is added,
removed or reordered. -/
theorem update_charge_frame (prices : List Slot) (n b d : Int) :
    (update_charge prices n b d).length = prices.length ∧
    ∀ i : Nat, ((update_charge prices n b d)[i]?).map
          (fun s => (s.datetime, s.level, s.price))
        = (prices[i]?).map (fun s => (s.datetime, s.level, s.price)) := by
  rw [update_charge_as_map]
  refine ⟨List.length_map _ _, fun i => ?_⟩
  rw [List.getElem?_map]
  cases hi : prices[i]? with
  | none => rfl
  | some s =>
    simp only [Option.map_some']
    have h1 := blockMark_keeps
      (awaySlots (reservePhase prices n (max 1 b)) (max 1 b) d)
      (reserveMark (selectedSlots prices n (max 1 b)) s)
    have h2 := reserveMark_keeps (selectedSlots prices n (max 1 b)) s
    rw [h1.1, h1.2.1, h1.2.2, h2.1, h2.2.1, h2.2.2]

theorem update_charge_map_datetime (prices : List Slot) (n b d : Int) :
    (update_charge prices n b d).map (fun s => s.datetime)
      = prices.map (fun s => s.datetime) := by
  rw [update_charge_as_map, List.map_map]
  refine List.map_congr_left (fun a _ => ?_)
  show (blockMark _ (reserveMark _ a)).datetime = a.datetime
  rw [(blockMark_keeps _ _).1, (reserveMark_keeps _ _).1]

/-- C8: the blocked-window marking step never changes a slot whose charge is
`RESERVED`, including slots reserved earlier in the same call: every position
that is `RESERVED` after the reservation phase is still `RESERVED` after the
whole call, so the away window never overwrites a reservation and the
reserved and blocked slot sets stay disjoint. -/
theorem block_never_overwrites_reserved (prices : List Slot) (n b d : Int)
    (i : Nat)
    (h : ((reservePhase prices n (max 1 b))[i]?).map (fun s => s.charge)
        = some Charge.RESERVED) :
    ((update_charge prices n b d)[i]?).map (fun s => s.charge)
      = some Charge.RESERVED := by
  show (((blockPhase (reservePhase prices n (max 1 b)) (max 1 b) d))[i]?).map
      (fun s => s.charge) = some Charge.RESERVED
  rw [blockPhase, List.getElem?_map]
  cases hi : (reservePhase prices n (max 1 b))[i]? with
  | none => rw [hi] at h; cases h
  | some s =>
    rw [hi] at h
    simp only [Option.map_some'] at h ⊢
    injection h with h
    exact congrArg some ((blockMark_charge_reserved _ _).mpr h)

set_option maxRecDepth 2000 in
/-- Witness for the reservation-precedence theorem: a single undecided slot
is reserved by the call `update_charge oneSlot 1 1 1` and stays reserved
after the blocking phase. -/
theorem block_never_overwrites_reserved_witness :
    ((reservePhase oneSlot 1 (max 1 1))[0]?).map (fun s => s.charge)
        = some Charge.RESERVED ∧
      ((update_charge oneSlot 1 1 1)[0]?).map (fun s => s.charge)
        = some Charge.RESERVED :=
  ⟨by with_unfolding_all decide,
    block_never_overwrites_reserved oneSlot 1 1 1 0 (by with_unfolding_all decide)⟩

theorem sweepBlock_decomp (xs ys : List Slot) (b : Slot)
    (hb : b.charge = Charge.BLOCKED)
    (hxs : ∀ x ∈ xs, x.charge ≠ Charge.BLOCKED) :
    sweepBlock (xs ++ b :: ys) = xs.map blockUndecided ++ b :: ys := by
  induction xs with
  | nil => simp [sweepBlock, hb]
  | cons a xs ih =>
    have ha : a.charge ≠ Charge.BLOCKED := hxs a (List.mem_cons_self a xs)
    have hrest := ih (fun x hx => hxs x (List.mem_cons_of_mem a hx))
    simp only [List.cons_append, sweepBlock, List.map_cons, List.append_eq]
    rw [if_neg ha]
    by_cases hu : a.charge = Charge.UNDECIDED
    · rw [if_pos hu, hrest]
      simp [blockUndecided, hu]
    · rw [if_neg hu, hrest]
      simp [blockUndecided, hu]

/-- C7: when the event loop's uncommitted pool hits exactly zero after an
event, the sweep over the slot list turns every `UNDECIDED` slot into
`BLOCKED` up to (but not including) the first already-`BLOCKED` slot, leaves
`RESERVED` slots alone, and changes nothing at or past that first `BLOCKED`
slot. -/
theorem pool_zero_sweeps_to_first_blocked (cfg : Config) (now : Int)
    (charge_left : ℚ) (prices : List Slot) (e : CalEvent)
    (xs ys : List Slot) (b : Slot)
    (hz : max (charge_left - (eventCharge cfg e : ℚ)) 0 = 0)
    (hdec : update_charge prices (eventHoursNeeded cfg charge_left e)
        (eventBudget now e) (eventDuration e) = xs ++ b :: ys)
    (hb : b.charge = Charge.BLOCKED)
    (hxs : ∀ x ∈ xs, x.charge ≠ Charge.BLOCKED) :
    (eventStep cfg now (charge_left, prices) e).2
      = xs.map blockUndecided ++ b :: ys := by
  show (if max (charge_left - (eventCharge cfg e : ℚ)) 0 = 0 then
      sweepBlock (update_charge prices (eventHoursNeeded cfg charge_left e)
        (eventBudget now e) (eventDuration e))
    else update_charge prices (eventHoursNeeded cfg charge_left e)
        (eventBudget now e) (eventDuration e))
      = xs.map blockUndecided ++ b :: ys
  rw [if_pos hz, hdec]
  exact sweepBlock_decomp xs ys b hb hxs

set_option maxRecDepth 2000 in
/-- Witness for the sweep theorem: pool 0, a zero-distance event needing
8 kWh, three slots of which the first gets reserved and the third is blocked;
the sweep blocks the second slot and stops at the third. -/
theorem pool_zero_sweeps_to_first_blocked_witness :
    max ((0 : ℚ) - (eventCharge defaultConfig sweepEvent : ℚ)) 0 = 0 ∧
      update_charge sweepPrices (eventHoursNeeded defaultConfig 0 sweepEvent)
          (eventBudget 0 sweepEvent) (eventDuration sweepEvent)
        = sweepXs ++ sweepB :: [] ∧
      sweepB.charge = Charge.BLOCKED ∧
      (eventStep defaultConfig 0 (0, sweepPrices) sweepEvent).2
        = sweepXs.map blockUndecided ++ sweepB :: [] := by
  have h8 : eventChargeNeeded defaultConfig sweepEvent = 8 := by
    norm_num [eventChargeNeeded, sweepEvent, defaultConfig]
  have hec : eventCharge defaultConfig sweepEvent = 8 := by
    rw [eventCharge, h8]
    norm_num [defaultConfig]
  have hn : eventHoursNeeded defaultConfig 0 sweepEvent = 1 := by
    rw [eventHoursNeeded, hec, Int.ceil_eq_iff]
    norm_num [CHARGE_POWER]
  have hbud : eventBudget 0 sweepEvent = 0 := by
    norm_num [eventBudget, eventDepart, sweepEvent]
  have hdur : eventDuration sweepEvent = 0 := by
    norm_num [eventDuration, eventDepart, eventHome, sweepEvent]
  have hz : max ((0 : ℚ) - (eventCharge defaultConfig sweepEvent : ℚ)) 0 = 0 := by
    rw [hec]; norm_num
  have hdec : update_charge sweepPrices (eventHoursNeeded defaultConfig 0 sweepEvent)
      (eventBudget 0 sweepEvent) (eventDuration sweepEvent)
        = sweepXs ++ sweepB :: [] := by
    rw [hn, hbud, hdur]
    with_unfolding_all rfl
  exact ⟨hz, hdec, by decide,
    pool_zero_sweeps_to_first_blocked defaultConfig 0 0 sweepPrices sweepEvent
      sweepXs [] sweepB hz hdec (by decide) (by decide)⟩

theorem insertSorted_perm {α : Type*} (le : α → α → Bool) (a : α) (l : List α) :
    (insertSorted le a l).Perm (a :: l) := by
  induction l with
  | nil => exact List.Perm.refl _
  | cons b l ih =>
    unfold insertSorted
    split
    · exact List.Perm.refl _
    · exact (ih.cons b).trans (List.Perm.swap a b l)

theorem sortBy_perm {α : Type*} (le : α → α → Bool) (l : List α) :
    (sortBy le l).Perm l := by
  induction l with
  | nil => exact List.Perm.refl _
  | cons a l ih => exact (insertSorted_perm le a (sortBy le l)).trans (ih.cons a)

theorem pySlice_sublist {α : Type*} (l : List α) (i j : Int) :
    (pySlice l i j).Sublist l :=
  (List.drop_sublist _ _).trans (List.take_sublist _ _)

theorem pyIdx_zero (n : Nat) : pyIdx n 0 = 0 := by
  unfold pyIdx
  simp

theorem pyIdx_of_nonneg (n : Nat) (i : Int) (h : 0 ≤ i) :
    pyIdx n i = min i.toNat n := by
  unfold pyIdx
  rw [if_neg (by omega)]

theorem take_min_length {α : Type*} (l : List α) (m : Nat) :
    l.take (min l.length m) = l.take m := by
  rcases Nat.le_total l.length m with h | h
  · rw [min_eq_left h, List.take_length, List.take_of_length_le h]
  · rw [min_eq_right h]

theorem pySlice_zero_min {α : Type*} (l : List α) (k : Int) (hk : 0 ≤ k) :
    pySlice l 0 (min (l.length : Int) k) = l.take k.toNat := by
  unfold pySlice
  rw [pyIdx_zero, pyIdx_of_nonneg _ _ (by omega), List.drop_zero]
  have h2 : min (min (l.length : Int) k).toNat l.length = min l.length k.toNat := by
    omega
  rw [h2, take_min_length]

theorem selectedSlots_length (prices : List Slot) (n hb : Int)
    (hn : 0 ≤ n) (hhb : 0 ≤ hb) :
    (selectedSlots prices n hb).length
      = min n.toNat (min hb.toNat
          (prices.countP (fun s => s.charge = Charge.UNDECIDED))) := by
  simp only [selectedSlots]
  rw [pySlice_zero_min _ _ hn, pySlice_zero_min _ _ hhb]
  rw [List.length_take, (sortBy_perm priceDtLe _).length_eq, List.length_take,
    (sortBy_perm dtLe _).length_eq, List.countP_eq_length_filter]

theorem selectedSlots_subperm (prices : List Slot) (n hb : Int) :
    (selectedSlots prices n hb).Subperm
      (prices.filter (fun s => s.charge = Charge.UNDECIDED)) := by
  simp only [selectedSlots]
  refine (pySlice_sublist _ _ _).subperm.trans ?_
  refine (sortBy_perm priceDtLe _).subperm.trans ?_
  refine (pySlice_sublist _ _ _).subperm.trans ?_
  exact (sortBy_perm dtLe _).subperm

theorem selectedSlots_mem {prices : List Slot} {n hb : Int} {t : Slot}
    (ht : t ∈ selectedSlots prices n hb) :
    t ∈ prices ∧ t.charge = Charge.UNDECIDED := by
  have h := (selectedSlots_subperm prices n hb).subset ht
  rw [List.mem_filter] at h
  exact ⟨h.1, by simpa using h.2⟩

theorem selectedSlots_nodup_dt (prices : List Slot) (n hb : Int)
    (hnd : (prices.map (fun s => s.datetime)).Nodup) :
    ((selectedSlots prices n hb).map (fun s => s.datetime)).Nodup := by
  obtain ⟨u, hu1, hu2⟩ := selectedSlots_subperm prices n hb
  have h3 : (u.map (fun s => s.datetime)).Sublist
      (prices.map (fun s => s.datetime)) :=
    (hu2.map _).trans ((List.filter_sublist _).map _)
  exact ((hu1.map (fun s => s.datetime)).nodup_iff).mp
    (List.Nodup.sublist h3 hnd)

theorem countP_mem_eq_length {d1 d2 : List Int} (h1 : d1.Nodup)
    (h2 : d2.Nodup) (hsub : ∀ x ∈ d1, x ∈ d2) :
    d2.countP (fun x => x ∈ d1) = d1.length := by
  rw [List.countP_eq_length_filter]
  have hmem : ∀ x, x ∈ d2.filter (fun x => x ∈ d1) ↔ x ∈ d1 := by
    intro x
    rw [List.mem_filter]
    constructor
    · intro hx
      simpa using hx.2
    · intro hx
      exact ⟨hsub x hx, by simpa⟩
  exact ((List.perm_ext_iff_of_nodup (List.Nodup.filter _ h2) h1).mpr
    hmem).length_eq

theorem newlyReservedCount_map (l : List Slot) (f : Slot → Slot) :
    newlyReservedCount l (l.map f)
      = l.countP (fun a => a.charge ≠ Charge.RESERVED ∧
          (f a).charge = Charge.RESERVED) := by
  unfold newlyReservedCount
  induction l with
  | nil => rfl
  | cons a l ih => simp only [List.map_cons, List.zip_cons_cons, List.countP_cons, ih]

set_option maxHeartbeats 1000000 in
theorem countP_newly_reserved (prices : List Slot) (n hb d : Int)
    (hnd : (prices.map (fun s => s.datetime)).Nodup) :
    prices.countP (fun s => s.charge ≠ Charge.RESERVED ∧
        (blockMark (awaySlots (reservePhase prices n hb) hb d)
          (reserveMark (selectedSlots prices n hb) s)).charge = Charge.RESERVED)
      = (selectedSlots prices n hb).length := by
  have hpt : ∀ s ∈ prices,
      (decide (s.charge ≠ Charge.RESERVED ∧
        (blockMark (awaySlots (reservePhase prices n hb) hb d)
          (reserveMark (selectedSlots prices n hb) s)).charge = Charge.RESERVED)
        = true)
      ↔ (decide (s.datetime
          ∈ (selectedSlots prices n hb).map (fun t => t.datetime)) = true) := by
    intro s hs
    simp only [decide_eq_true_eq]
    rw [blockMark_charge_reserved, reserveMark_charge]
    constructor
    · rintro ⟨hne, hor⟩
      rcases hor with hany | hres
      · obtain ⟨t, ht, hdt⟩ := List.any_eq_true.mp hany
        exact List.mem_map.mpr ⟨t, ht, by simpa using hdt⟩
      · exact absurd hres hne
    · intro hmem
      obtain ⟨t, ht, hdt⟩ := List.mem_map.mp hmem
      obtain ⟨htp, htu⟩ := selectedSlots_mem ht
      have hts : t = s := List.inj_on_of_nodup_map hnd htp hs hdt
      refine ⟨?_, Or.inl (List.any_eq_true.mpr ⟨t, ht, by simpa using hdt⟩)⟩
      rw [← hts, htu]
      intro hc
      cases hc
  rw [List.countP_congr hpt]
  have hsub : ∀ x ∈ (selectedSlots prices n hb).map (fun t => t.datetime),
      x ∈ prices.map (fun s => s.datetime) := by
    intro x hx
    obtain ⟨t, ht, hdt⟩ := List.mem_map.mp hx
    exact List.mem_map.mpr ⟨t, (selectedSlots_mem ht).1, hdt⟩
  calc prices.countP (fun x => decide (x.datetime
          ∈ (selectedSlots prices n hb).map (fun t => t.datetime)))
      = (prices.map (fun s => s.datetime)).countP
          (fun x => decide (x ∈ (selectedSlots prices n hb).map
            (fun t => t.datetime))) :=
        (List.countP_map
          (fun x : Int => decide (x ∈ (selectedSlots prices n hb).map
            (fun t : Slot => t.datetime)))
          (fun s : Slot => s.datetime) prices).symm
    _ = ((selectedSlots prices n hb).map (fun t => t.datetime)).length :=
        countP_mem_eq_length (selectedSlots_nodup_dt prices n hb hnd) hnd hsub
    _ = (selectedSlots prices n hb).length := List.length_map _ _

/-- C1: on a slot list with unique ascending start times and a call with
`hours_needed ≥ 0`, one `update_charge` invocation newly marks exactly
`min(hours_needed, max(1, hours_budget), count of UNDECIDED slots)` slots as
`RESERVED`, which also equals `min(hours_needed, count of UNDECIDED slots in
the deadline window of the first max(1, hours_budget) undecided slots by
start time)`. -/
theorem reserve_marks_min_slots (prices : List Slot)
    (hours_needed hours_budget hours_duration : Int)
    (hn : 0 ≤ hours_needed)
    (hasc : (prices.map (fun s => s.datetime)).Pairwise (· < ·)) :
    newlyReservedCount prices
        (update_charge prices hours_needed hours_budget hours_duration)
      = min hours_needed.toNat (min (max 1 hours_budget).toNat
          (prices.countP (fun s => s.charge = Charge.UNDECIDED))) ∧
    newlyReservedCount prices
        (update_charge prices hours_needed hours_budget hours_duration)
      = min hours_needed.toNat
          ((deadlineWindow prices hours_budget).countP
            (fun s => s.charge = Charge.UNDECIDED)) := by
  have hnd : (prices.map (fun s => s.datetime)).Nodup :=
    List.Pairwise.imp (fun h => ne_of_lt h) hasc
  have h1 : newlyReservedCount prices
      (update_charge prices hours_needed hours_budget hours_duration)
      = (selectedSlots prices hours_needed (max 1 hours_budget)).length := by
    rw [update_charge_as_map, newlyReservedCount_map]
    exact countP_newly_reserved prices hours_needed (max 1 hours_budget)
      hours_duration hnd
  have h2 := selectedSlots_length prices hours_needed (max 1 hours_budget) hn
    (by omega)
  constructor
  · rw [h1, h2]
  · rw [h1, h2]
    have hwc : (deadlineWindow prices hours_budget).countP
        (fun s => s.charge = Charge.UNDECIDED)
        = (deadlineWindow prices hours_budget).length := by
      rw [List.countP_eq_length]
      intro a ha
      simp only [deadlineWindow] at ha
      have ha2 : a ∈ prices.filter (fun s => s.charge = Charge.UNDECIDED) :=
        (sortBy_perm dtLe _).subset (List.take_subset _ _ ha)
      exact (List.mem_filter.mp ha2).2
    have hwl : (deadlineWindow prices hours_budget).length
        = min (max 1 hours_budget).toNat
            (prices.countP (fun s => s.charge = Charge.UNDECIDED)) := by
      rw [deadlineWindow, List.length_take, (sortBy_perm dtLe _).length_eq,
        List.countP_eq_length_filter]
    rw [hwc, hwl]

/-- Witness for the reservation-count theorem: three undecided slots, budget
2, one hour needed: exactly one slot is newly reserved. -/
theorem reserve_marks_min_slots_witness :
    (0 : Int) ≤ 1 ∧
      (threeSlots.map (fun s => s.datetime)).Pairwise (· < ·) ∧
      newlyReservedCount threeSlots (update_charge threeSlots 1 2 0)
        = min (1 : Int).toNat (min (max 1 (2 : Int)).toNat
            (threeSlots.countP (fun s => s.charge = Charge.UNDECIDED))) :=
  ⟨by decide, by decide,
    (reserve_marks_min_slots threeSlots 1 2 0 (by decide) (by decide)).1⟩

theorem update_charge_keeps_decided (prices : List Slot) (n b d : Int)
    (hnd : (prices.map (fun s => s.datetime)).Nodup) (i : Nat) :
    ((prices[i]?).map (fun s => s.charge) = some Charge.RESERVED →
      ((update_charge prices n b d)[i]?).map (fun s => s.charge)
        = some Charge.RESERVED) ∧
    ((prices[i]?).map (fun s => s.charge) = some Charge.BLOCKED →
      ((update_charge prices n b d)[i]?).map (fun s => s.charge)
        = some Charge.BLOCKED) := by
  rw [update_charge_as_map, List.getElem?_map]
  cases hi : prices[i]? with
  | none => exact ⟨fun h => (nomatch h), fun h => nomatch h⟩
  | some s =>
    have hs : s ∈ prices := List.getElem?_mem hi
    simp only [Option.map_some']
    constructor
    · intro h
      injection h with h
      have h1 : (reserveMark (selectedSlots prices n (max 1 b)) s).charge
          = Charge.RESERVED := (reserveMark_charge _ _).mpr (Or.inr h)
      exact congrArg some ((blockMark_charge_reserved _ _).mpr h1)
    · intro h
      injection h with h
      have hnot : ¬ ((selectedSlots prices n (max 1 b)).any
          (fun t => t.datetime = s.datetime) = true) := by
        intro hany
        obtain ⟨t, ht, hdt⟩ := List.any_eq_true.mp hany
        obtain ⟨htp, htu⟩ := selectedSlots_mem ht
        have hts : t = s :=
          List.inj_on_of_nodup_map hnd htp hs (by simpa using hdt)
        rw [hts, h] at htu
        cases htu
      have h1 : reserveMark (selectedSlots prices n (max 1 b)) s = s := by
        rw [reserveMark, if_neg hnot]
      rw [h1]
      exact congrArg some (blockMark_charge_blocked _ _ h)

/-- C2: over any sequence of `update_charge` calls within one cycle (slot
datetimes unique), the charge state of a slot that is already `RESERVED` or
`BLOCKED` never changes: re-running never frees a decided slot. -/
theorem run_calls_keep_decided (prices : List Slot)
    (calls : List (Int × Int × Int))
    (hnd : (prices.map (fun s => s.datetime)).Nodup) (i : Nat) :
    ((prices[i]?).map (fun s => s.charge) = some Charge.RESERVED →
      ((runCalls prices calls)[i]?).map (fun s => s.charge)
        = some Charge.RESERVED) ∧
    ((prices[i]?).map (fun s => s.charge) = some Charge.BLOCKED →
      ((runCalls prices calls)[i]?).map (fun s => s.charge)
        = some Charge.BLOCKED) := by
  induction calls generalizing prices with
  | nil => exact ⟨fun h => h, fun h => h⟩
  | cons c calls ih =>
    have hnd' : ((update_charge prices c.1 c.2.1 c.2.2).map
        (fun s => s.datetime)).Nodup := by
      rw [update_charge_map_datetime]
      exact hnd
    have hstep := update_charge_keeps_decided prices c.1 c.2.1 c.2.2 hnd i
    have hrec := ih (update_charge prices c.1 c.2.1 c.2.2) hnd'
    exact ⟨fun h => hrec.1 (hstep.1 h), fun h => hrec.2 (hstep.2 h)⟩

/-- Witness for the decided-slots theorem: a list with one reserved and one
blocked slot keeps both states across an `update_charge` call. -/
theorem run_calls_keep_decided_witness :
    (decidedSlots.map (fun s => s.datetime)).Nodup ∧
      ((runCalls decidedSlots [(1, 1, 1)])[0]?).map (fun s => s.charge)
        = some Charge.RESERVED ∧
      ((runCalls decidedSlots [(1, 1, 1)])[1]?).map (fun s => s.charge)
        = some Charge.BLOCKED :=
  ⟨by decide,
    (run_calls_keep_decided decidedSlots [(1, 1, 1)] (by decide) 0).1 (by decide),
    (run_calls_keep_decided decidedSlots [(1, 1, 1)] (by decide) 1).2 (by decide)⟩

end PBC
